import Mathlib

/-
Verification of the Diff-Sheriff review-extraction pipeline.

The TypeScript source exists in three variants (src/index.ts, the worker
embedded in README.md, and unnamed/part_000).  The pipeline functions
`extractJson`, `validateFinding`, `validateAiResponse`, `deriveRecommendation`,
`buildUserPrompt` and the truncation step are identical across variants and are
embedded once, at the top level.  Variant-specific code lives in two
namespaces: `Full` for the README worker (trivial-diff detection, metadata
noise filter, retry controller) and `Inline` for the part_000 worker
(recommendation-dependent heading emoji, inline comments).

JavaScript strings are modelled as `String`/`List Char`; JSON numbers (IEEE
doubles produced by `JSON.parse`) are modelled as `Rat`, with
`Number.isInteger` modelled by `Rat.isInt`.
-/

set_option maxHeartbeats 1000000
set_option maxRecDepth 100000

namespace DiffSheriff

/-- Severity of a review finding: the closed enum
`"high" | "medium" | "low" | "nit"` of the `Finding` interface. -/
inductive Severity
  | high
  | medium
  | low
  | nit
  deriving DecidableEq, Repr

/-- A validated review finding, mirroring the TypeScript `Finding` interface.
Optional fields are `Option`; a `line` admitted by validation passed
`Number.isInteger` and is therefore stored as `Int`. -/
structure Finding where
  severity : Severity
  title : String
  rationale : String
  suggestion : Option String := none
  file : Option String := none
  line : Option Int := none
  deriving DecidableEq, Repr

/-- The derived merge-readiness verdict
`"approve" | "approve_with_changes" | "request_changes"`. -/
inductive Recommendation
  | approve
  | approve_with_changes
  | request_changes
  deriving DecidableEq, Repr

/-- A parsed JSON value, the result type of `JSON.parse`.  Numbers are
modelled as rationals so that the `Number.isInteger` check is `Rat.isInt`. -/
inductive JsonValue
  | null
  | bool (b : Bool)
  | num (q : Rat)
  | str (s : String)
  | arr (elems : List JsonValue)
  | obj (fields : List (String × JsonValue))

/-- Field access `obj.key` on a parsed JSON object.  Objects produced by
`JSON.parse` have unique keys, so first-match lookup models record access. -/
def getField (fields : List (String × JsonValue)) (key : String) : Option JsonValue :=
  match fields with
  | [] => none
  | (k, v) :: rest => if k = key then some v else getField rest key

/-- Source `deriveRecommendation` (identical in README.md and part_000):
any high severity gives request_changes, else any medium gives
approve_with_changes, else approve.  The `hasHigh`/`hasMedium` locals of the
source are inlined into the two `if` conditions. -/
def deriveRecommendation (findings : List Finding) : Recommendation :=
  if findings.any (fun f => f.severity == Severity.high) then .request_changes
  else if findings.any (fun f => f.severity == Severity.medium) then .approve_with_changes
  else .approve

/-- Source constant `MAX_DIFF_LENGTH = 60_000` (all variants). -/
def MAX_DIFF_LENGTH : Nat := 60000

/-- The truncation step of `handleReview` (all variants):
`if (reviewReq.diff.length > MAX_DIFF_LENGTH) reviewReq.diff = reviewReq.diff.slice(0, MAX_DIFF_LENGTH)`,
recording `truncatedDiff`.  A JS string is modelled as its character list. -/
def truncateDiff (diff : List Char) : List Char × Bool :=
  if diff.length > MAX_DIFF_LENGTH then (diff.take MAX_DIFF_LENGTH, true)
  else (diff, false)

/-- C3: the recommendation is a pure function of the finding list's
severities: some high finding forces request_changes; otherwise some medium
finding forces approve_with_changes; otherwise (including the empty list) the
result is approve; and low/nit findings never influence the outcome (filtering
the list down to its high/medium findings leaves the result unchanged). -/
theorem deriveRecommendation_pure_of_severities (findings : List Finding) :
    ((∃ f ∈ findings, f.severity = Severity.high) →
        deriveRecommendation findings = Recommendation.request_changes)
    ∧ ((¬ ∃ f ∈ findings, f.severity = Severity.high) →
       (∃ f ∈ findings, f.severity = Severity.medium) →
        deriveRecommendation findings = Recommendation.approve_with_changes)
    ∧ ((¬ ∃ f ∈ findings, f.severity = Severity.high) →
       (¬ ∃ f ∈ findings, f.severity = Severity.medium) →
        deriveRecommendation findings = Recommendation.approve)
    ∧ deriveRecommendation findings =
        deriveRecommendation (findings.filter
          (fun f => f.severity == Severity.high || f.severity == Severity.medium)) := by
  have hany : ∀ (s : Severity),
      (findings.any (fun f => f.severity == s) = true) ↔ (∃ f ∈ findings, f.severity = s) := by
    intro s
    simp [List.any_eq_true]
  have hanyf : ∀ (s : Severity),
      ((findings.filter (fun f => f.severity == Severity.high || f.severity == Severity.medium)).any
        (fun f => f.severity == s) = true) ↔
      (∃ f ∈ findings, (f.severity = Severity.high ∨ f.severity = Severity.medium) ∧ f.severity = s) := by
    intro s
    simp [List.any_eq_true, List.mem_filter, and_assoc]
  refine ⟨?_, ?_, ?_, ?_⟩
  · intro h
    have := (hany Severity.high).mpr h
    simp [deriveRecommendation, this]
  · intro hnh hm
    have h1 : findings.any (fun f => f.severity == Severity.high) = false := by
      rw [← Bool.not_eq_true, (hany Severity.high)]
      exact hnh
    have h2 := (hany Severity.medium).mpr hm
    simp [deriveRecommendation, h1, h2]
  · intro hnh hnm
    have h1 : findings.any (fun f => f.severity == Severity.high) = false := by
      rw [← Bool.not_eq_true, (hany Severity.high)]
      exact hnh
    have h2 : findings.any (fun f => f.severity == Severity.medium) = false := by
      rw [← Bool.not_eq_true, (hany Severity.medium)]
      exact hnm
    simp [deriveRecommendation, h1, h2]
  · by_cases hh : ∃ f ∈ findings, f.severity = Severity.high
    · have l := (hany Severity.high).mpr hh
      have r : ((findings.filter (fun f => f.severity == Severity.high || f.severity == Severity.medium)).any
          (fun f => f.severity == Severity.high) = true) := by
        rw [hanyf Severity.high]
        obtain ⟨f, hf, hs⟩ := hh
        exact ⟨f, hf, Or.inl hs, hs⟩
      simp [deriveRecommendation, l, r]
    · by_cases hm : ∃ f ∈ findings, f.severity = Severity.medium
      · have l1 : findings.any (fun f => f.severity == Severity.high) = false := by
          rw [← Bool.not_eq_true, (hany Severity.high)]; exact hh
        have l2 := (hany Severity.medium).mpr hm
        have r1 : ((findings.filter (fun f => f.severity == Severity.high || f.severity == Severity.medium)).any
            (fun f => f.severity == Severity.high) = false) := by
          rw [← Bool.not_eq_true, hanyf Severity.high]
          rintro ⟨f, hf, _, hs⟩
          exact hh ⟨f, hf, hs⟩
        have r2 : ((findings.filter (fun f => f.severity == Severity.high || f.severity == Severity.medium)).any
            (fun f => f.severity == Severity.medium) = true) := by
          rw [hanyf Severity.medium]
          obtain ⟨f, hf, hs⟩ := hm
          exact ⟨f, hf, Or.inr hs, hs⟩
        simp [deriveRecommendation, l1, l2, r1, r2]
      · have l1 : findings.any (fun f => f.severity == Severity.high) = false := by
          rw [← Bool.not_eq_true, (hany Severity.high)]; exact hh
        have l2 : findings.any (fun f => f.severity == Severity.medium) = false := by
          rw [← Bool.not_eq_true, (hany Severity.medium)]; exact hm
        have r1 : ((findings.filter (fun f => f.severity == Severity.high || f.severity == Severity.medium)).any
            (fun f => f.severity == Severity.high) = false) := by
          rw [← Bool.not_eq_true, hanyf Severity.high]
          rintro ⟨f, hf, _, hs⟩
          exact hh ⟨f, hf, hs⟩
        have r2 : ((findings.filter (fun f => f.severity == Severity.high || f.severity == Severity.medium)).any
            (fun f => f.severity == Severity.medium) = false) := by
          rw [← Bool.not_eq_true, hanyf Severity.medium]
          rintro ⟨f, hf, _, hs⟩
          exact hm ⟨f, hf, hs⟩
        simp [deriveRecommendation, l1, l2, r1, r2]

/-- Witness for C3: a lone medium finding yields approve_with_changes, a
high+medium pair yields request_changes, and the empty list yields approve. -/
theorem deriveRecommendation_pure_of_severities_witness :
    deriveRecommendation [{ severity := Severity.medium, title := "t", rationale := "r" }] =
      Recommendation.approve_with_changes
    ∧ deriveRecommendation [{ severity := Severity.high, title := "t", rationale := "r" },
        { severity := Severity.medium, title := "t2", rationale := "r2" }] =
      Recommendation.request_changes
    ∧ deriveRecommendation [] = Recommendation.approve := by
  refine ⟨?_, ?_, ?_⟩
  · exact (deriveRecommendation_pure_of_severities _).2.1 (by decide) (by decide)
  · exact (deriveRecommendation_pure_of_severities _).1 (by decide)
  · exact (deriveRecommendation_pure_of_severities _).2.2.1 (by decide) (by decide)

/-- C4: a diff of length at most 60,000 characters passes through unchanged
with the truncated flag false; a longer diff is cut to exactly its first
60,000 characters (the output length equals the bound) with the flag true. -/
theorem truncateDiff_spec (diff : List Char) :
    (diff.length ≤ MAX_DIFF_LENGTH → truncateDiff diff = (diff, false))
    ∧ (MAX_DIFF_LENGTH < diff.length →
        (truncateDiff diff).1 = diff.take MAX_DIFF_LENGTH
        ∧ (truncateDiff diff).1.length = MAX_DIFF_LENGTH
        ∧ (truncateDiff diff).2 = true) := by
  constructor
  · intro h
    simp [truncateDiff, Nat.not_lt.mpr h]
  · intro h
    refine ⟨?_, ?_, ?_⟩
    · simp [truncateDiff, h]
    · simp [truncateDiff, h, List.length_take, Nat.min_eq_left (Nat.le_of_lt h)]
    · simp [truncateDiff, h]

/-- Witness for C4: a one-character diff is untouched, and a diff of
60,001 characters is truncated with the flag set. -/
theorem truncateDiff_spec_witness :
    truncateDiff ['a'] = (['a'], false)
    ∧ (truncateDiff (List.replicate (MAX_DIFF_LENGTH + 1) 'b')).1.length = MAX_DIFF_LENGTH
    ∧ (truncateDiff (List.replicate (MAX_DIFF_LENGTH + 1) 'b')).2 = true := by
  have hlt : MAX_DIFF_LENGTH < (List.replicate (MAX_DIFF_LENGTH + 1) 'b').length := by
    simp [List.length_replicate]
  refine ⟨?_, ?_, ?_⟩
  · exact (truncateDiff_spec _).1 (by simp [MAX_DIFF_LENGTH])
  · exact ((truncateDiff_spec _).2 hlt).2.1
  · exact ((truncateDiff_spec _).2 hlt).2.2

/-- Model of `text.indexOf(ch)` for a single character, returning `none`
where JS returns `-1`. -/
def indexOfChar (c : Char) : List Char → Option Nat
  | [] => none
  | x :: xs => if x = c then some 0 else (indexOfChar c xs).map (· + 1)

/-- Model of `text.lastIndexOf(ch)` for a single character, returning `none`
where JS returns `-1`. -/
def lastIndexOfChar (c : Char) (l : List Char) : Option Nat :=
  (indexOfChar c l.reverse).map (fun i => l.length - 1 - i)

/-- Declarative statement that `i` is the index of the first occurrence of
`c` in `l`. -/
def FirstOcc (l : List Char) (c : Char) (i : Nat) : Prop :=
  l.get? i = some c ∧ ∀ k, k < i → l.get? k ≠ some c

/-- Declarative statement that `j` is the index of the last occurrence of
`c` in `l`. -/
def LastOcc (l : List Char) (c : Char) (j : Nat) : Prop :=
  l.get? j = some c ∧ ∀ k, k < l.length → j < k → l.get? k ≠ some c

theorem indexOfChar_eq_some_iff (c : Char) (l : List Char) (i : Nat) :
    indexOfChar c l = some i ↔ FirstOcc l c i := by
  induction l generalizing i with
  | nil =>
    simp [indexOfChar, FirstOcc]
  | cons x xs ih =>
    by_cases hx : x = c
    · subst hx
      rw [indexOfChar, if_pos rfl]
      constructor
      · intro h
        obtain rfl : (0 : Nat) = i := by simpa using h
        exact ⟨rfl, fun k hk => absurd hk (Nat.not_lt_zero k)⟩
      · rintro ⟨hg, hlt⟩
        cases i with
        | zero => rfl
        | succ i' => exact absurd (show (x :: xs).get? 0 = some x from rfl) (hlt 0 (Nat.succ_pos i'))
    · rw [indexOfChar, if_neg hx]
      constructor
      · intro h
        obtain ⟨i', hi', rfl⟩ := Option.map_eq_some'.mp h
        obtain ⟨hg, hlt⟩ := (ih i').mp hi'
        refine ⟨by simpa using hg, ?_⟩
        intro k hk
        cases k with
        | zero =>
          intro hkc
          exact hx (by simpa using hkc)
        | succ k' =>
          intro hkc
          exact hlt k' (Nat.lt_of_succ_lt_succ hk) (by simpa using hkc)
      · rintro ⟨hg, hlt⟩
        cases i with
        | zero => exact absurd (by simpa using hg) hx
        | succ i' =>
          have hxs : FirstOcc xs c i' :=
            ⟨by simpa using hg,
             fun k hk hkc => hlt (k + 1) (Nat.succ_lt_succ hk) (by simpa using hkc)⟩
          rw [(ih i').mpr hxs]
          rfl

theorem indexOfChar_eq_none_iff (c : Char) (l : List Char) :
    indexOfChar c l = none ↔ c ∉ l := by
  induction l with
  | nil => simp [indexOfChar]
  | cons x xs ih =>
    by_cases hx : x = c
    · subst hx
      simp [indexOfChar]
    · rw [indexOfChar, if_neg hx]
      simp only [Option.map_eq_none', List.mem_cons, ih]
      constructor
      · intro h hc
        rcases hc with hc | hc
        · exact hx hc.symm
        · exact h hc
      · intro h hc
        exact h (Or.inr hc)

theorem lastIndexOfChar_eq_none_iff (c : Char) (l : List Char) :
    lastIndexOfChar c l = none ↔ c ∉ l := by
  unfold lastIndexOfChar
  rw [Option.map_eq_none', indexOfChar_eq_none_iff, List.mem_reverse]

theorem lastIndexOfChar_eq_some_iff (c : Char) (l : List Char) (j : Nat) :
    lastIndexOfChar c l = some j ↔ LastOcc l c j := by
  unfold lastIndexOfChar
  constructor
  · intro h
    obtain ⟨i, hrev, hj⟩ := Option.map_eq_some'.mp h
    obtain ⟨hg, hmin⟩ := (indexOfChar_eq_some_iff c l.reverse i).mp hrev
    have hilen : i < l.length := by
      have := (List.get?_eq_some.mp hg).1
      simpa using this
    have hgj : l.get? j = some c := by
      rw [← hj, ← List.get?_reverse hilen]
      exact hg
    refine ⟨hgj, ?_⟩
    intro k hklen hjk hkc
    have hrevk : l.reverse.get? (l.length - 1 - k) = some c := by
      have e : l.length - 1 - (l.length - 1 - k) = k := by omega
      rw [List.get?_reverse (by omega : l.length - 1 - k < l.length), e]
      exact hkc
    exact hmin (l.length - 1 - k) (by omega) hrevk
  · rintro ⟨hg, hmax⟩
    have hjlen : j < l.length := by
      have := (List.get?_eq_some.mp hg).1
      simpa using this
    have hrevj : l.reverse.get? (l.length - 1 - j) = some c := by
      have e : l.length - 1 - (l.length - 1 - j) = j := by omega
      rw [List.get?_reverse (by omega : l.length - 1 - j < l.length), e]
      exact hg
    have hfo : FirstOcc l.reverse c (l.length - 1 - j) := by
      refine ⟨hrevj, ?_⟩
      intro k hk hkc
      have hklen : k < l.length := by omega
      have hlk : l.get? (l.length - 1 - k) = some c := by
        rw [← List.get?_reverse (by simpa using hklen)]
        exact hkc
      exact hmax (l.length - 1 - k) (by omega) (by omega) hlk
    rw [(indexOfChar_eq_some_iff c l.reverse _).mpr hfo]
    simp only [Option.map_some', Option.some.injEq]
    omega

instance (l : List Char) (c : Char) (i : Nat) : Decidable (FirstOcc l c i) := by
  unfold FirstOcc
  infer_instance

instance (l : List Char) (c : Char) (j : Nat) : Decidable (LastOcc l c j) := by
  unfold LastOcc
  infer_instance

/-- Failure conditions of `extractJson`: `NoJsonFound` when a brace is
absent or the last closing brace precedes the first opening one, and
`MalformedJson` when `JSON.parse` rejects the extracted substring. -/
inductive ExtractError
  | noJsonFound
  | malformedJson
  deriving DecidableEq, Repr

/-- Source `extractJson` (identical in all variants): locate the first
opening brace and the last closing brace, fail when either is missing or out
of order, then hand `text.slice(firstBrace, lastBrace + 1)` to `JSON.parse`.
The platform parser `JSON.parse` is a parameter `parse`; it returns `none`
exactly on input that is not syntactically valid JSON. -/
def extractJson (parse : String → Option JsonValue) (text : String) :
    Except ExtractError JsonValue :=
  match indexOfChar '\x7b' text.data, lastIndexOfChar '\x7d' text.data with
  | some firstBrace, some lastBrace =>
    if lastBrace < firstBrace then .error .noJsonFound
    else
      match parse (String.mk ((text.data.drop firstBrace).take (lastBrace + 1 - firstBrace))) with
      | some v => .ok v
      | none => .error .malformedJson
  | _, _ => .error .noJsonFound

/-- C1: `extractJson` fails with the no-JSON-found condition when the text
has no opening brace, no closing brace, or its last closing brace precedes
its first opening brace; otherwise it parses exactly the inclusive substring
from the first opening brace to the last closing brace, returning the parsed
value on success and the malformed-JSON condition when that substring is not
valid JSON. -/
theorem extractJson_spec (parse : String → Option JsonValue) (text : String) :
    ((('\x7b' ∉ text.data) ∨ ('\x7d' ∉ text.data)) →
        extractJson parse text = .error ExtractError.noJsonFound)
    ∧ (∀ i j, FirstOcc text.data '\x7b' i → LastOcc text.data '\x7d' j →
        (j < i → extractJson parse text = .error ExtractError.noJsonFound)
        ∧ (i ≤ j → extractJson parse text =
            match parse (String.mk ((text.data.drop i).take (j + 1 - i))) with
            | some v => Except.ok v
            | none => Except.error ExtractError.malformedJson)) := by
  constructor
  · intro h
    unfold extractJson
    rcases h with h1 | h2
    · rw [(indexOfChar_eq_none_iff _ _).mpr h1]
    · rw [(lastIndexOfChar_eq_none_iff _ _).mpr h2]
      cases indexOfChar '\x7b' text.data <;> rfl
  · intro i j hfo hlo
    have hfi := (indexOfChar_eq_some_iff _ _ _).mpr hfo
    have hli := (lastIndexOfChar_eq_some_iff _ _ _).mpr hlo
    constructor
    · intro hji
      unfold extractJson
      rw [hfi, hli]
      simp only [if_pos hji]
    · intro hij
      unfold extractJson
      rw [hfi, hli]
      simp only [if_neg (Nat.not_lt.mpr hij)]

/-- Witness for C1: with a parser accepting everything, the text `a{c}d`
extracts the substring between its braces and succeeds, while a braceless
text fails with the no-JSON-found condition. -/
theorem extractJson_spec_witness :
    extractJson (fun _ => some JsonValue.null) (String.mk ['a', '\x7b', 'c', '\x7d', 'd'])
      = Except.ok JsonValue.null
    ∧ extractJson (fun _ => some JsonValue.null) "abc"
      = Except.error ExtractError.noJsonFound := by
  constructor
  · have h := ((extractJson_spec (fun _ => some JsonValue.null)
      (String.mk ['a', '\x7b', 'c', '\x7d', 'd'])).2 1 3 (by decide) (by decide)).2
      (by omega)
    exact h
  · exact (extractJson_spec (fun _ => some JsonValue.null) "abc").1 (by decide)

/-- JS whitespace, as used by `String.prototype.trim` and the regex class
`\s` (ASCII subset; the exotic Unicode space characters never matter to the
properties proved here). -/
def isJsWs (c : Char) : Bool :=
  c = ' ' || c = '\t' || c = '\n' || c = '\r' || c = '\x0b' || c = '\x0c'

/-- Model of `String.prototype.trim` on a character list: drop leading and
trailing whitespace. -/
def trimList (l : List Char) : List Char :=
  ((l.dropWhile isJsWs).reverse.dropWhile isJsWs).reverse

/-- Model of `s.trim()` on a Lean string. -/
def strTrim (s : String) : String :=
  String.mk (trimList s.data)

/-- The `validSeverities.includes(obj.severity)` check of `validateFinding`,
mapping the four legal severity strings to the enum and rejecting everything
else. -/
def severityFromString : String → Option Severity
  | "high" => some .high
  | "medium" => some .medium
  | "low" => some .low
  | "nit" => some .nit
  | _ => none

/-- Source `validateFinding` (identical in all variants): reject when the
element lacks a legal `severity` string, a non-empty string `title`, or a
non-empty string `rationale`; otherwise build the finding, keeping
`suggestion`/`file` only when they are non-empty strings and `line` only when
it is a number passing `Number.isInteger`.  A JSON array is `typeof "object"`
in JS but has none of these fields, so it too yields `null`, as does every
non-object. -/
def validateFinding (f : JsonValue) : Option Finding :=
  match f with
  | .obj fields =>
    match getField fields "severity" with
    | some (.str sevStr) =>
      match severityFromString sevStr with
      | none => none
      | some sev =>
        match getField fields "title" with
        | some (.str title) =>
          if title = "" then none
          else
            match getField fields "rationale" with
            | some (.str rationale) =>
              if rationale = "" then none
              else
                some { severity := sev
                       title := title
                       rationale := rationale
                       suggestion :=
                         match getField fields "suggestion" with
                         | some (.str s) => if s = "" then none else some s
                         | _ => none
                       file :=
                         match getField fields "file" with
                         | some (.str s) => if s = "" then none else some s
                         | _ => none
                       line :=
                         match getField fields "line" with
                         | some (.num q) => if q.isInt then some q.num else none
                         | _ => none }
            | _ => none
        | _ => none
    | _ => none
  | _ => none

/-- Failure conditions of `validateAiResponse`. -/
inductive ValidateError
  | notAnObject
  | missingSummary
  deriving DecidableEq, Repr

/-- The typed result of `validateAiResponse` (README.md and part_000 shape,
which carries `testingNotes`; src/index.ts simply omits the notes). -/
structure AiValidated where
  summary : String
  findings : List Finding
  testingNotes : List String
  deriving DecidableEq, Repr

/-- The findings loop of `validateAiResponse`: validate each element and
push the survivors in emission order. -/
def collectFindings : List JsonValue → List Finding
  | [] => []
  | f :: rest =>
    match validateFinding f with
    | some v => v :: collectFindings rest
    | none => collectFindings rest

/-- The testing-notes loop of `validateAiResponse`: keep the trimmed form of
every string entry whose trimmed form is non-empty. -/
def collectNotes : List JsonValue → List String
  | [] => []
  | .str s :: rest =>
    if strTrim s = "" then collectNotes rest else strTrim s :: collectNotes rest
  | _ :: rest => collectNotes rest

/-- Source `validateAiResponse`: fail unless the parsed value is an object
with a string `summary`; collect findings when `findings` is an array and
notes when `testingNotes` is an array, an absent or non-array field yielding
the empty list.  A JSON array is `typeof "object"` in JS, but its `summary`
access yields `undefined`, so an array fails the summary check. -/
def validateAiResponse (parsed : JsonValue) : Except ValidateError AiValidated :=
  match parsed with
  | .obj fields =>
    match getField fields "summary" with
    | some (.str summary) =>
      .ok { summary := summary
            findings :=
              match getField fields "findings" with
              | some (.arr xs) => collectFindings xs
              | _ => []
            testingNotes :=
              match getField fields "testingNotes" with
              | some (.arr xs) => collectNotes xs
              | _ => [] }
    | _ => .error .missingSummary
  | .arr _ => .error .missingSummary
  | _ => .error .notAnObject

theorem collectFindings_eq_filterMap (xs : List JsonValue) :
    collectFindings xs = xs.filterMap validateFinding := by
  induction xs with
  | nil => rfl
  | cons x rest ih =>
    cases h : validateFinding x <;> simp [collectFindings, List.filterMap_cons, h, ih]

/-- C2: when the parsed object carries a string summary, the findings never
fail validation as a whole: an array-shaped `findings` field is reduced to
exactly the elements `validateFinding` accepts, in their original order
(invalid elements are dropped, valid siblings survive), and an absent or
non-array `findings` yields the empty sequence rather than an error.
An element with no `rationale` field is invalid, as is one whose `severity`
string is outside the enum (such as "critical"). -/
theorem validateAiResponse_findings_spec (fields : List (String × JsonValue)) (s : String)
    (hs : getField fields "summary" = some (.str s)) :
    (∃ r, validateAiResponse (.obj fields) = .ok r
        ∧ r.summary = s
        ∧ r.findings = (match getField fields "findings" with
            | some (.arr xs) => xs.filterMap validateFinding
            | _ => [])
        ∧ r.testingNotes = (match getField fields "testingNotes" with
            | some (.arr xs) => collectNotes xs
            | _ => []))
    ∧ (∀ gfields, getField gfields "rationale" = none → validateFinding (.obj gfields) = none)
    ∧ (∀ gfields bad, getField gfields "severity" = some (.str bad) →
        severityFromString bad = none → validateFinding (.obj gfields) = none) := by
  refine ⟨?_, ?_, ?_⟩
  · refine ⟨{ summary := s
              findings := match getField fields "findings" with
                | some (.arr xs) => xs.filterMap validateFinding
                | _ => []
              testingNotes := match getField fields "testingNotes" with
                | some (.arr xs) => collectNotes xs
                | _ => [] }, ?_, rfl, rfl, rfl⟩
    simp only [validateAiResponse, hs]
    cases hf : getField fields "findings" with
    | none => rfl
    | some v => cases v <;> simp [collectFindings_eq_filterMap]
  · intro gfields h
    unfold validateFinding
    repeat' split
    all_goals simp_all
  · intro gfields bad hb hnone
    unfold validateFinding
    repeat' split
    all_goals simp_all

/-- A concrete parsed response whose findings mix two valid elements with an
element missing `rationale` and an element with severity "critical". -/
def sampleResponseFields : List (String × JsonValue) :=
  [("summary", .str "S"),
   ("findings", .arr
     [.obj [("severity", .str "high"), ("title", .str "T1"), ("rationale", .str "R1")],
      .obj [("severity", .str "medium"), ("title", .str "T2")],
      .obj [("severity", .str "critical"), ("title", .str "T3"), ("rationale", .str "R3")],
      .obj [("severity", .str "nit"), ("title", .str "T4"), ("rationale", .str "R4")]])]

/-- Witness for C2: on the mixed array the two valid findings survive in
order and the two invalid ones are dropped. -/
theorem validateAiResponse_findings_spec_witness :
    getField sampleResponseFields "summary" = some (.str "S")
    ∧ (validateAiResponse (.obj sampleResponseFields)).map AiValidated.findings
      = .ok [{ severity := Severity.high, title := "T1", rationale := "R1" },
             { severity := Severity.nit, title := "T4", rationale := "R4" }] := by
  refine ⟨rfl, ?_⟩
  obtain ⟨r, hr, _, h2, _⟩ := (validateAiResponse_findings_spec sampleResponseFields "S" rfl).1
  rw [hr]
  simp only [Except.map]
  rw [h2]
  rfl

/-- C7 counterexample: a findings element whose `line` is the integral
number -3 survives validation and carries the negative value -3 as its line;
the code checks only `Number.isInteger`, never non-negativity. -/
theorem validateFinding_admits_negative_line :
    validateFinding (.obj [("severity", .str "high"), ("title", .str "t"),
        ("rationale", .str "r"), ("line", .num (-3))])
      = some { severity := Severity.high, title := "t", rationale := "r",
               suggestion := none, file := none, line := some (-3) }
    ∧ ((-3 : Int) < 0) := by
  constructor
  · rfl
  · decide

/-- C7 amended: a validated finding's line is exactly the integer value of a
`line` field holding a number that passes `Number.isInteger` (any integer,
negative values included); a non-integral number, a non-number, or an absent
`line` field is not admitted, the finding surviving without a line. -/
theorem validateFinding_line_integer (gfields : List (String × JsonValue)) (fd : Finding)
    (h : validateFinding (.obj gfields) = some fd) :
    fd.line = (match getField gfields "line" with
      | some (.num q) => if q.isInt then some q.num else none
      | _ => none) := by
  unfold validateFinding at h
  repeat' split at h
  all_goals simp_all
  all_goals subst h
  all_goals rfl

/-- Witness for C7 amended: a finding whose `line` is 15/2 (a number failing
`Number.isInteger`) survives validation without a line. -/
theorem validateFinding_line_integer_witness :
    validateFinding (.obj [("severity", .str "low"), ("title", .str "t"),
        ("rationale", .str "r"), ("line", .num (mkRat 15 2))])
      = some { severity := Severity.low, title := "t", rationale := "r" }
    ∧ ({ severity := Severity.low, title := "t", rationale := "r" } : Finding).line
      = (match getField [("severity", JsonValue.str "low"), ("title", JsonValue.str "t"),
          ("rationale", JsonValue.str "r"), ("line", JsonValue.num (mkRat 15 2))] "line" with
        | some (.num q) => if q.isInt then some q.num else none
        | _ => none) := by
  have hv : validateFinding (.obj [("severity", .str "low"), ("title", .str "t"),
      ("rationale", .str "r"), ("line", .num (mkRat 15 2))])
      = some { severity := Severity.low, title := "t", rationale := "r" } := by decide
  exact ⟨hv, validateFinding_line_integer _ _ hv⟩

/-- JS truthiness of an optional string field: `undefined` and the empty
string are falsy. -/
def optStrTruthy : Option String → Bool
  | none => false
  | some s => !(s == "")

/-- JS truthiness of an optional numeric field: `undefined` and 0 are
falsy. -/
def optIntTruthy : Option Int → Bool
  | none => false
  | some n => !(n == 0)

theorem str_data_append (a b : String) : (a ++ b).data = a.data ++ b.data := by
  cases a
  cases b
  rfl

namespace Inline

/-- Source part_000 `formatFindingBullet`: title bullet, an optional
backtick-quoted `file:line` location (JS truthiness: an empty or absent file
means no location, an absent or zero line omits `:line`), the rationale, and
an arrow-prefixed suggestion when truthy. -/
def formatFindingBullet (f : Finding) : String :=
  let loc : String :=
    if optStrTruthy f.file then
      if optIntTruthy f.line then
        "`" ++ f.file.getD "" ++ ":" ++ toString (f.line.getD 0) ++ "`"
      else "`" ++ f.file.getD "" ++ "`"
    else ""
  let bullet := "- **" ++ f.title ++ "**"
  let bullet := if loc == "" then bullet else bullet ++ " " ++ loc
  let bullet := bullet ++ ": " ++ f.rationale
  if optStrTruthy f.suggestion then bullet ++ " → " ++ f.suggestion.getD "" else bullet

/-- The heading emoji of part_000 `renderReviewMarkdown`: the ternary on the
recommendation. -/
def recEmoji (rec : Recommendation) : String :=
  if rec = .approve then "✅"
  else if rec = .approve_with_changes then "⚠️" else "❌"

/-- Bucket header for high findings in the part_000 renderer. -/
def blockingHeader : String := "**🚨 Blocking**"

/-- Bucket header for medium findings in the part_000 renderer. -/
def shouldFixHeader : String := "**⚠️ Should Fix**"

/-- Bucket header for low and nit findings in the part_000 renderer. -/
def optionalHeader : String := "**💡 Optional**"

/-- Header of the testing-notes section in the part_000 renderer. -/
def testHeader : String := "**🧪 Test**"

/-- The `lines` array built by part_000 `renderReviewMarkdown` before the
final `join("\n")`: marker comment, recommendation-emoji heading, summary,
the three severity buckets (each rendered only when non-empty, with one
bullet per finding and a blank line after), the testing notes, and the
`<sub>` commit line (`sha ? sha.slice(0, 7) : ""`). -/
def renderLines (summary : String) (findings : List Finding) (testingNotes : List String)
    (rec : Recommendation) (sha : Option String) : List String :=
  ["<!-- diff-sheriff -->", "## " ++ recEmoji rec ++ " Diff-Sheriff", "", summary, ""]
  ++ (if 0 < (findings.filter (fun f => f.severity == Severity.high)).length then
        blockingHeader ::
          ((findings.filter (fun f => f.severity == Severity.high)).map formatFindingBullet
            ++ [""])
      else [])
  ++ (if 0 < (findings.filter (fun f => f.severity == Severity.medium)).length then
        shouldFixHeader ::
          ((findings.filter (fun f => f.severity == Severity.medium)).map formatFindingBullet
            ++ [""])
      else [])
  ++ (if 0 < (findings.filter (fun f => f.severity == Severity.low || f.severity == Severity.nit)).length then
        optionalHeader ::
          ((findings.filter (fun f => f.severity == Severity.low || f.severity == Severity.nit)).map formatFindingBullet
            ++ [""])
      else [])
  ++ (if 0 < testingNotes.length then
        testHeader :: (testingNotes.map (fun n => "- " ++ n) ++ [""])
      else [])
  ++ [("<sub>" ++ (if optStrTruthy sha then String.mk ((sha.getD "").data.take 7) else "")
        ++ "</sub>")]

/-- Source part_000 `renderReviewMarkdown`: the joined lines. -/
def renderReviewMarkdown (summary : String) (findings : List Finding)
    (testingNotes : List String) (rec : Recommendation) (sha : Option String) : String :=
  String.intercalate "\n" (renderLines summary findings testingNotes rec sha)

/-- The inline-comment body of part_000 `buildInlineComments`: severity
emoji, bold title, rationale, and an optional fenced suggestion block. -/
def inlineCommentBody (f : Finding) : String :=
  let severityEmoji :=
    if f.severity = Severity.high then "🚨"
    else if f.severity = Severity.medium then "⚠️" else "💡"
  let body := severityEmoji ++ " **" ++ f.title ++ "**\n\n" ++ f.rationale
  if optStrTruthy f.suggestion then
    body ++ "\n\n**Suggestion:**\n```suggestion\n" ++ f.suggestion.getD "" ++ "\n```"
  else body

/-- An inline comment record: `path`, `line`, rendered `body`. -/
structure InlineComment where
  path : String
  line : Int
  body : String
  deriving DecidableEq, Repr

/-- Source part_000 `buildInlineComments`: walk the findings in order,
skipping any finding whose `file` or `line` is falsy (`!f.file || !f.line`:
absent or empty file, absent or zero line), and emit one comment per
survivor copying its file and line.  The `getD` defaults are unreachable:
the truthiness test guarantees both fields are present. -/
def buildInlineComments : List Finding → List InlineComment
  | [] => []
  | f :: rest =>
    if !(optStrTruthy f.file) || !(optIntTruthy f.line) then buildInlineComments rest
    else { path := f.file.getD "", line := f.line.getD 0, body := inlineCommentBody f }
        :: buildInlineComments rest

/-- C8 counterexample: a finding that carries both a file and a line, with
line value 0, yields no inline comment: JS `!f.line` treats 0 as falsy, so
the finding is skipped even though both fields are present. -/
theorem buildInlineComments_drops_zero_line :
    buildInlineComments [{ severity := Severity.high, title := "t", rationale := "r",
                           file := some "a.ts", line := some 0 }] = []
    ∧ ({ severity := Severity.high, title := "t", rationale := "r",
         file := some "a.ts", line := some 0 } : Finding).file = some "a.ts"
    ∧ ({ severity := Severity.high, title := "t", rationale := "r",
         file := some "a.ts", line := some 0 } : Finding).line = some 0 :=
  ⟨rfl, rfl, rfl⟩

/-- C8 amended: over findings whose file, when present, is non-empty (which
validation guarantees), `buildInlineComments` emits exactly one comment, with
`path` the finding's file and `line` the finding's line, for every finding
carrying both a file and a nonzero line, in the findings' order; findings
lacking a file, lacking a line, or whose line is 0 (falsy in JS) are
excluded. -/
theorem buildInlineComments_spec (fs : List Finding)
    (hfile : ∀ f ∈ fs, f.file ≠ some "") :
    buildInlineComments fs = fs.filterMap (fun f =>
      match f.file, f.line with
      | some path, some n =>
        if n ≠ 0 then some { path := path, line := n, body := inlineCommentBody f }
        else none
      | _, _ => none) := by
  induction fs with
  | nil => rfl
  | cons f rest ih =>
    have hrest := ih (fun g hg => hfile g (List.mem_cons_of_mem f hg))
    have hf := hfile f (List.mem_cons_self f rest)
    cases hfi : f.file with
    | none =>
      simp [buildInlineComments, optStrTruthy, hfi, List.filterMap_cons, hrest]
    | some p =>
      have hp : ¬(p = "") := by
        rw [hfi] at hf
        simpa using hf
      cases hli : f.line with
      | none =>
        simp [buildInlineComments, optStrTruthy, optIntTruthy, hfi, hli,
          List.filterMap_cons, hrest, hp]
      | some n =>
        by_cases hn : n = 0
        · subst hn
          simp [buildInlineComments, optStrTruthy, optIntTruthy, hfi, hli,
            List.filterMap_cons, hrest, hp]
        · simp [buildInlineComments, optStrTruthy, optIntTruthy, hfi, hli,
            List.filterMap_cons, hrest, hp, hn]

/-- Witness for C8 amended: a finding with file and nonzero line yields its
comment; a finding lacking a file yields none. -/
theorem buildInlineComments_spec_witness :
    buildInlineComments
      [{ severity := Severity.high, title := "t1", rationale := "r1",
         file := some "a.ts", line := some 3 },
       { severity := Severity.low, title := "t2", rationale := "r2",
         file := none, line := some 5 }]
    = [{ path := "a.ts", line := 3,
         body := inlineCommentBody { severity := Severity.high, title := "t1",
                                     rationale := "r1", file := some "a.ts",
                                     line := some 3 } }] := by
  rw [buildInlineComments_spec _ (by decide)]
  rfl

theorem formatFindingBullet_head (f : Finding) :
    (formatFindingBullet f).data.head? = some '-' := by
  unfold formatFindingBullet
  repeat' split
  all_goals simp only [str_data_append]
  all_goals rfl

theorem not_mem_bullets (x : String) (hx : x.data.head? = some '*') (fs : List Finding) :
    x ∉ fs.map formatFindingBullet := by
  intro hm
  obtain ⟨f, _, he⟩ := List.mem_map.mp hm
  rw [← he, formatFindingBullet_head f] at hx
  exact absurd hx (by decide)

theorem not_mem_notes (x : String) (hx : x.data.head? = some '*') (ns : List String) :
    x ∉ ns.map (fun n => "- " ++ n) := by
  intro hm
  obtain ⟨n, _, he⟩ := List.mem_map.mp hm
  rw [← he] at hx
  rw [show ("- " ++ n).data.head? = some '-' by simp only [str_data_append]; rfl] at hx
  exact absurd hx (by decide)

theorem mem_section_iff (x hdr : String) (cond : Prop) [Decidable cond] (mid : List String)
    (hmid : x ∉ mid) (hemp : x ≠ "") :
    (x ∈ (if cond then hdr :: (mid ++ [""]) else ([] : List String))) ↔ (x = hdr ∧ cond) := by
  by_cases hc : cond
  · rw [if_pos hc]
    constructor
    · intro hm
      rcases List.mem_cons.mp hm with h | h
      · exact ⟨h, hc⟩
      · rcases List.mem_append.mp h with h' | h'
        · exact absurd h' hmid
        · exact absurd (List.mem_singleton.mp h') hemp
    · rintro ⟨rfl, _⟩
      exact List.mem_cons_self _ _
  · rw [if_neg hc]
    simp [hc]

theorem mem_renderLines_iff (x summary : String) (findings : List Finding)
    (notes : List String) (rec : Recommendation) (sha : Option String)
    (hx : x.data.head? = some '*') (hsum : x ≠ summary) :
    (x ∈ renderLines summary findings notes rec sha ↔
      ((x = blockingHeader
          ∧ 0 < (findings.filter (fun f => f.severity == Severity.high)).length)
       ∨ (x = shouldFixHeader
          ∧ 0 < (findings.filter (fun f => f.severity == Severity.medium)).length)
       ∨ (x = optionalHeader
          ∧ 0 < (findings.filter (fun f => f.severity == Severity.low || f.severity == Severity.nit)).length)
       ∨ (x = testHeader ∧ 0 < notes.length))) := by
  have hemp : x ≠ "" := by
    intro h
    rw [h] at hx
    exact absurd hx (by decide)
  have hmark : x ≠ "<!-- diff-sheriff -->" := by
    intro h
    rw [h] at hx
    exact absurd hx (by decide)
  have hhead : x ≠ "## " ++ recEmoji rec ++ " Diff-Sheriff" := by
    intro h
    rw [h] at hx
    rw [show ("## " ++ recEmoji rec ++ " Diff-Sheriff").data.head? = some '#' by
      simp only [str_data_append]; rfl] at hx
    exact absurd hx (by decide)
  have hsub : ∀ c : String, x ≠ "<sub>" ++ c ++ "</sub>" := by
    intro c h
    rw [h] at hx
    rw [show ("<sub>" ++ c ++ "</sub>").data.head? = some '<' by
      simp only [str_data_append]; rfl] at hx
    exact absurd hx (by decide)
  unfold renderLines
  rw [List.mem_append, List.mem_append, List.mem_append, List.mem_append, List.mem_append]
  rw [mem_section_iff x blockingHeader _
        ((findings.filter (fun f => f.severity == Severity.high)).map formatFindingBullet)
        (not_mem_bullets x hx _) hemp,
      mem_section_iff x shouldFixHeader _
        ((findings.filter (fun f => f.severity == Severity.medium)).map formatFindingBullet)
        (not_mem_bullets x hx _) hemp,
      mem_section_iff x optionalHeader _
        ((findings.filter (fun f => f.severity == Severity.low || f.severity == Severity.nit)).map formatFindingBullet)
        (not_mem_bullets x hx _) hemp,
      mem_section_iff x testHeader _ (notes.map (fun n => "- " ++ n))
        (not_mem_notes x hx _) hemp]
  have hA : x ∉ ["<!-- diff-sheriff -->", "## " ++ recEmoji rec ++ " Diff-Sheriff",
      "", summary, ""] := by
    intro hm
    rcases List.mem_cons.mp hm with h | hm
    · exact hmark h
    rcases List.mem_cons.mp hm with h | hm
    · exact hhead h
    rcases List.mem_cons.mp hm with h | hm
    · exact hemp h
    rcases List.mem_cons.mp hm with h | hm
    · exact hsum h
    rcases List.mem_cons.mp hm with h | hm
    · exact hemp h
    simp at hm
  have hS : x ∉ [("<sub>"
      ++ (if optStrTruthy sha then String.mk ((sha.getD "").data.take 7) else "")
      ++ "</sub>")] := by
    intro hm
    exact hsub _ (List.mem_singleton.mp hm)
  tauto

theorem filter_length_pos_iff {α : Type} (p : α → Bool) (l : List α) :
    (0 < (l.filter p).length) ↔ ∃ a ∈ l, p a = true := by
  rw [List.length_pos, Ne, List.filter_eq_nil]
  push_neg
  simp

/-- C9: the report's heading line (line 1 of the rendered lines) carries an
emoji determined by the recommendation, the three emojis being pairwise
distinct; and each severity-bucket header appears in the report exactly when
its bucket is non-empty — an empty bucket is omitted entirely.  The summary
is assumed distinct from the three header strings (the header lines are
otherwise the only lines beginning with an asterisk). -/
theorem renderReviewMarkdown_spec (summary : String) (findings : List Finding)
    (notes : List String) (rec : Recommendation) (sha : Option String)
    (h1 : summary ≠ blockingHeader) (h2 : summary ≠ shouldFixHeader)
    (h3 : summary ≠ optionalHeader) :
    renderReviewMarkdown summary findings notes rec sha
        = String.intercalate "\n" (renderLines summary findings notes rec sha)
    ∧ (renderLines summary findings notes rec sha).get? 1
        = some ("## " ++ recEmoji rec ++ " Diff-Sheriff")
    ∧ (recEmoji Recommendation.approve ≠ recEmoji Recommendation.approve_with_changes
       ∧ recEmoji Recommendation.approve ≠ recEmoji Recommendation.request_changes
       ∧ recEmoji Recommendation.approve_with_changes ≠ recEmoji Recommendation.request_changes)
    ∧ (blockingHeader ∈ renderLines summary findings notes rec sha
        ↔ ∃ f ∈ findings, f.severity = Severity.high)
    ∧ (shouldFixHeader ∈ renderLines summary findings notes rec sha
        ↔ ∃ f ∈ findings, f.severity = Severity.medium)
    ∧ (optionalHeader ∈ renderLines summary findings notes rec sha
        ↔ ∃ f ∈ findings, (f.severity = Severity.low ∨ f.severity = Severity.nit)) := by
  refine ⟨rfl, rfl, by refine ⟨?_, ?_, ?_⟩ <;> decide, ?_, ?_, ?_⟩
  · rw [mem_renderLines_iff blockingHeader summary findings notes rec sha rfl
      (fun h => h1 h.symm)]
    rw [filter_length_pos_iff, filter_length_pos_iff, filter_length_pos_iff]
    constructor
    · intro h
      rcases h with ⟨_, h⟩ | ⟨h, _⟩ | ⟨h, _⟩ | ⟨h, _⟩
      · simpa using h
      all_goals exact absurd h (by decide)
    · intro h
      exact Or.inl ⟨rfl, by simpa using h⟩
  · rw [mem_renderLines_iff shouldFixHeader summary findings notes rec sha rfl
      (fun h => h2 h.symm)]
    rw [filter_length_pos_iff, filter_length_pos_iff, filter_length_pos_iff]
    constructor
    · intro h
      rcases h with ⟨h, _⟩ | ⟨_, h⟩ | ⟨h, _⟩ | ⟨h, _⟩
      · exact absurd h (by decide)
      · simpa using h
      all_goals exact absurd h (by decide)
    · intro h
      exact Or.inr (Or.inl ⟨rfl, by simpa using h⟩)
  · rw [mem_renderLines_iff optionalHeader summary findings notes rec sha rfl
      (fun h => h3 h.symm)]
    rw [filter_length_pos_iff, filter_length_pos_iff, filter_length_pos_iff]
    constructor
    · intro h
      rcases h with ⟨h, _⟩ | ⟨h, _⟩ | ⟨_, h⟩ | ⟨h, _⟩
      · exact absurd h (by decide)
      · exact absurd h (by decide)
      · simpa using h
      · exact absurd h (by decide)
    · intro h
      exact Or.inr (Or.inr (Or.inl ⟨rfl, by simpa using h⟩))

/-- Witness for C9: a report with one high finding and a distinct summary
shows the request-changes heading emoji, contains the blocking header, and
omits the should-fix and optional headers. -/
theorem renderReviewMarkdown_spec_witness :
    (renderLines "ok" [{ severity := Severity.high, title := "t", rationale := "r" }]
        [] Recommendation.request_changes none).get? 1
      = some ("## " ++ recEmoji Recommendation.request_changes ++ " Diff-Sheriff")
    ∧ blockingHeader ∈ renderLines "ok"
        [{ severity := Severity.high, title := "t", rationale := "r" }]
        [] Recommendation.request_changes none
    ∧ shouldFixHeader ∉ renderLines "ok"
        [{ severity := Severity.high, title := "t", rationale := "r" }]
        [] Recommendation.request_changes none := by
  have h := renderReviewMarkdown_spec "ok"
    [{ severity := Severity.high, title := "t", rationale := "r" }]
    [] Recommendation.request_changes none (by decide) (by decide) (by decide)
  refine ⟨h.2.1, ?_, ?_⟩
  · exact h.2.2.2.1.mpr ⟨_, List.mem_singleton.mpr rfl, rfl⟩
  · intro hm
    obtain ⟨f, hf, hs⟩ := h.2.2.2.2.1.mp hm
    rw [List.mem_singleton.mp hf] at hs
    exact absurd hs (by decide)

end Inline

theorem dropWhile_head_false (p : Char → Bool) (l : List Char) (c : Char) (t : List Char)
    (h : l.dropWhile p = c :: t) : p c = false := by
  induction l with
  | nil => cases h
  | cons x xs ih =>
    by_cases hx : p x = true
    · rw [List.dropWhile_cons_of_pos hx] at h
      exact ih h
    · rw [List.dropWhile_cons_of_neg hx] at h
      cases h
      simpa using hx

theorem trimList_head_not_ws (m : List Char) (c : Char) (t : List Char)
    (h : trimList m = c :: t) : isJsWs c = false := by
  unfold trimList at h
  cases hdc : m.dropWhile isJsWs with
  | nil =>
    rw [hdc] at h
    cases h
  | cons c0 d' =>
    have hc0 : isJsWs c0 = false := dropWhile_head_false isJsWs m c0 d' hdc
    rw [hdc] at h
    have hene : (c0 :: d').reverse.dropWhile isJsWs ≠ [] := by
      intro h0
      rw [h0] at h
      cases h
    have h1 : ((c0 :: d').reverse.dropWhile isJsWs).getLast? = some c := by
      rw [← List.head?_reverse, h]
      rfl
    have h2 : ((c0 :: d').reverse.dropWhile isJsWs).getLast? = ((c0 :: d').reverse).getLast? := by
      obtain ⟨pre, hpre⟩ := List.dropWhile_suffix (l := (c0 :: d').reverse) isJsWs
      conv_rhs => rw [← hpre]
      rw [List.getLast?_append_of_ne_nil pre hene]
    have h3 : ((c0 :: d').reverse).getLast? = some c0 := by
      rw [List.reverse_cons, List.getLast?_concat]
    rw [h1, h3] at h2
    obtain rfl : c = c0 := by simpa using h2
    exact hc0

namespace Full

/-- Model of `diff.split("\n")` on a character list.  The accumulator of the
fold is never empty (it starts as `[[]]`); the `[]` case is unreachable. -/
def splitOnNl (l : List Char) : List (List Char) :=
  l.foldr (fun c acc =>
    match acc with
    | [] => [[c]]
    | cur :: rest => if c = '\n' then [] :: cur :: rest else (c :: cur) :: rest) [[]]

/-- The scanning loop of README `isTrivialDiff`: walk the split lines,
skipping lines that do not start with `+`/`-`, the `+++`/`---` header lines,
and content lines that trim to nothing or to one of the five comment
markers; report a substantive change (short-circuiting) at the first other
line.  The final `/^\s*$/` guard of the source is preserved even though it
can never fire after a non-empty trim. -/
def scanLines : List (List Char) → Bool
  | [] => false
  | line :: rest =>
    if !(['+'].isPrefixOf line) && !(['-'].isPrefixOf line) then scanLines rest
    else if ['+', '+', '+'].isPrefixOf line || ['-', '-', '-'].isPrefixOf line then
      scanLines rest
    else
      if (trimList (line.drop 1)).isEmpty then scanLines rest
      else if ['/', '/'].isPrefixOf (trimList (line.drop 1))
          || ['#'].isPrefixOf (trimList (line.drop 1))
          || ['*'].isPrefixOf (trimList (line.drop 1))
          || ['/', '*'].isPrefixOf (trimList (line.drop 1))
          || ['*', '/'].isPrefixOf (trimList (line.drop 1)) then scanLines rest
      else if (trimList (line.drop 1)).all isJsWs then scanLines rest
      else true

/-- Source README `isTrivialDiff`: true when no line of the diff survives
the filters of the scan (`!hasSubstantiveChange`). -/
def isTrivialDiff (diff : List Char) : Bool :=
  !(scanLines (splitOnNl diff))

/-- A line contributing content to the triviality scan: it starts with `+`
or `-` but is not a `+++`/`---` file-header line. -/
def IsContentLine (line : List Char) : Prop :=
  (['+'].isPrefixOf line = true ∨ ['-'].isPrefixOf line = true)
  ∧ ¬ ['+', '+', '+'].isPrefixOf line = true
  ∧ ¬ ['-', '-', '-'].isPrefixOf line = true

/-- A content line the triviality scan tolerates: dropping the one-character
prefix and trimming surrounding whitespace leaves it empty or starting with
one of the comment markers `//`, `#`, `*`, `/*`, `*/`. -/
def IsTrivialLine (line : List Char) : Prop :=
  trimList (line.drop 1) = []
  ∨ ['/', '/'].isPrefixOf (trimList (line.drop 1)) = true
  ∨ ['#'].isPrefixOf (trimList (line.drop 1)) = true
  ∨ ['*'].isPrefixOf (trimList (line.drop 1)) = true
  ∨ ['/', '*'].isPrefixOf (trimList (line.drop 1)) = true
  ∨ ['*', '/'].isPrefixOf (trimList (line.drop 1)) = true

instance (line : List Char) : Decidable (IsContentLine line) := by
  unfold IsContentLine
  infer_instance

instance (line : List Char) : Decidable (IsTrivialLine line) := by
  unfold IsTrivialLine
  infer_instance

theorem scanLines_eq_false_iff (lines : List (List Char)) :
    scanLines lines = false ↔
      ∀ line ∈ lines, IsContentLine line → IsTrivialLine line := by
  induction lines with
  | nil => simp [scanLines]
  | cons line rest ih =>
    unfold scanLines
    by_cases h1 : (!(['+'].isPrefixOf line) && !(['-'].isPrefixOf line)) = true
    · rw [if_pos h1]
      have hnc : ¬ IsContentLine line := by
        intro hc
        rcases hc.1 with hp | hp <;>
          simp [Bool.and_eq_true, Bool.not_eq_true', hp] at h1
      rw [ih]
      simp only [List.forall_mem_cons]
      constructor
      · intro h
        exact ⟨fun hc => absurd hc hnc, h⟩
      · intro h
        exact h.2
    · rw [if_neg h1]
      have hpm : ['+'].isPrefixOf line = true ∨ ['-'].isPrefixOf line = true := by
        by_contra hn
        push_neg at hn
        simp [Bool.and_eq_true, Bool.not_eq_true', hn.1, hn.2] at h1
      by_cases h2 : (['+', '+', '+'].isPrefixOf line || ['-', '-', '-'].isPrefixOf line) = true
      · rw [if_pos h2]
        have hnc : ¬ IsContentLine line := by
          intro hc
          rcases Bool.or_eq_true _ _ |>.mp h2 with hp | hp
          · exact hc.2.1 hp
          · exact hc.2.2 hp
        rw [ih]
        simp only [List.forall_mem_cons]
        constructor
        · intro h
          exact ⟨fun hc => absurd hc hnc, h⟩
        · intro h
          exact h.2
      · rw [if_neg h2]
        have hc : IsContentLine line := by
          refine ⟨hpm, ?_, ?_⟩ <;> intro hp <;> simp [hp] at h2
        by_cases h3 : (trimList (line.drop 1)).isEmpty = true
        · rw [if_pos h3]
          have htriv : IsTrivialLine line := Or.inl (by simpa [List.isEmpty_iff] using h3)
          rw [ih]
          simp only [List.forall_mem_cons]
          constructor
          · intro h
            exact ⟨fun _ => htriv, h⟩
          · intro h
            exact h.2
        · rw [if_neg h3]
          by_cases h4 : (['/', '/'].isPrefixOf (trimList (line.drop 1))
              || ['#'].isPrefixOf (trimList (line.drop 1))
              || ['*'].isPrefixOf (trimList (line.drop 1))
              || ['/', '*'].isPrefixOf (trimList (line.drop 1))
              || ['*', '/'].isPrefixOf (trimList (line.drop 1))) = true
          · rw [if_pos h4]
            have htriv : IsTrivialLine line := by
              unfold IsTrivialLine
              simp only [Bool.or_eq_true] at h4
              tauto
            rw [ih]
            simp only [List.forall_mem_cons]
            constructor
            · intro h
              exact ⟨fun _ => htriv, h⟩
            · intro h
              exact h.2
          · rw [if_neg h4]
            have hne : trimList (line.drop 1) ≠ [] := by
              simpa [List.isEmpty_iff] using h3
            obtain ⟨c, t, hct⟩ : ∃ c t, trimList (line.drop 1) = c :: t := by
              cases htl : trimList (line.drop 1) with
              | nil => exact absurd htl hne
              | cons c t => exact ⟨c, t, rfl⟩
            have hcw : isJsWs c = false := trimList_head_not_ws _ _ _ hct
            have h5 : (trimList (line.drop 1)).all isJsWs = false := by
              rw [hct, List.all_cons, hcw]
              rfl
            rw [h5, if_neg (by simp)]
            have hnt : ¬ IsTrivialLine line := by
              intro ht
              unfold IsTrivialLine at ht
              simp only [Bool.or_eq_true] at h4
              rcases ht with h | h | h | h | h | h
              · exact hne h
              all_goals
                exact h4 (by tauto)
            constructor
            · intro h
              cases h
            · intro h
              exact absurd (h line (List.mem_cons_self line rest) hc) hnt

/-- C5: `isTrivialDiff` returns true exactly when every line of the diff
that starts with `+` or `-` (excluding the `+++`/`---` file-header lines)
trims, after removal of its prefix character, to the empty string or to a
string starting with one of the comment markers `//`, `#`, `*`, `/*`, `*/`;
in particular a diff with no `+`/`-` lines at all is trivial. -/
theorem isTrivialDiff_spec (diff : List Char) :
    (isTrivialDiff diff = true ↔
        ∀ line ∈ splitOnNl diff, IsContentLine line → IsTrivialLine line)
    ∧ ((∀ line ∈ splitOnNl diff, ¬ IsContentLine line) → isTrivialDiff diff = true) := by
  have h := scanLines_eq_false_iff (splitOnNl diff)
  constructor
  · rw [isTrivialDiff, Bool.not_eq_true']
    exact h
  · intro hnone
    rw [isTrivialDiff, Bool.not_eq_true']
    exact h.mpr (fun line hl hcontent => absurd hcontent (hnone line hl))

/-- Witness for C5: a diff with no changed lines is trivial, and a diff
whose one added line has real content is not. -/
theorem isTrivialDiff_spec_witness :
    isTrivialDiff ('a' :: '\n' :: 'b' :: []) = true
    ∧ isTrivialDiff ('+' :: ' ' :: 'x' :: []) = false := by
  constructor
  · exact (isTrivialDiff_spec _).2 (by decide)
  · rw [← Bool.not_eq_true]
    intro ht
    have := (isTrivialDiff_spec ('+' :: ' ' :: 'x' :: [])).1.mp ht
      ('+' :: ' ' :: 'x' :: []) (by decide) (by decide)
    exact absurd this (by decide)

end Full

deriving instance DecidableEq for Except

theorem trimList_eq_nil_of_all_ws (l : List Char) (h : l.all isJsWs = true) :
    trimList l = [] := by
  have hd : l.dropWhile isJsWs = [] :=
    List.dropWhile_eq_nil_iff.mpr (fun x hx => by simpa using List.all_eq_true.mp h x hx)
  unfold trimList
  rw [hd]
  rfl

/-- The review mode enum, defaulting to summary. -/
inductive Mode
  | summary
  | inline
  deriving DecidableEq, Repr

/-- The string form of a mode, as interpolated into the prompt. -/
def modeString : Mode → String
  | .summary => "summary"
  | .inline => "inline"

/-- The TypeScript `ReviewRequest` built by `handleReview` from the request
body: `diff` required, the rest optional (`prNumber`/`mrIid` are JSON
numbers), `mode` defaulted to summary so it is always set. -/
structure ReviewRequest where
  diff : List Char
  provider : Option String := none
  repo : Option String := none
  prNumber : Option Rat := none
  mrIid : Option Rat := none
  sha : Option String := none
  title : Option String := none
  description : Option String := none
  mode : Mode := .summary
  rulesMd : Option String := none
  deriving DecidableEq, Repr

namespace Full

/-- A `typeof x === "string" ? x : undefined` optional field read. -/
def optStrField (fields : List (String × JsonValue)) (key : String) : Option String :=
  match getField fields key with
  | some (.str s) => some s
  | _ => none

/-- A `typeof x === "number" ? x : undefined` optional field read. -/
def optNumField (fields : List (String × JsonValue)) (key : String) : Option Rat :=
  match getField fields key with
  | some (.num q) => some q
  | _ => none

/-- Extraction-or-validation failure of one parse attempt, the condition the
retry controller reacts to. -/
inductive AttemptError
  | extract (e : ExtractError)
  | validate (e : ValidateError)
  deriving DecidableEq, Repr

/-- Pipeline failures of the README `handleReview`, by the `errorResponse`
call sites: non-object body and missing/empty diff are the 400 rejections;
a failed first inference call is the AI-failure 500; a failed retry is the
AI-response-parsing 500, whether the retry's inference call itself failed
(`parseFailureInfer`) or its reply failed extraction/validation
(`parseFailureAttempt`) — both raise inside the same catch block. -/
inductive ReviewError
  | bodyNotObject
  | missingDiff
  | aiFailure (msg : String)
  | parseFailureInfer (msg : String)
  | parseFailureAttempt (e : AttemptError)
  deriving DecidableEq, Repr

/-- The HTTP status each `errorResponse` call passes. -/
def statusOf : ReviewError → Nat
  | .bodyNotObject => 400
  | .missingDiff => 400
  | .aiFailure _ => 500
  | .parseFailureInfer _ => 500
  | .parseFailureAttempt _ => 500

/-- The body checks of `handleReview` (lines 681-702 of the README worker):
reject a non-object body, then reject unless `diff` is a string whose trim
is truthy, then build the `ReviewRequest` with the `typeof`-guarded optional
fields and the mode defaulting.  A JSON array is `typeof "object"` in JS but
carries no `diff` field, so it falls to the missing-diff rejection. -/
def checkAndBuild (body : JsonValue) : Except ReviewError ReviewRequest :=
  match body with
  | .obj fields =>
    match getField fields "diff" with
    | some (.str s) =>
      if trimList s.data = [] then .error .missingDiff
      else
        .ok { diff := s.data
              provider := optStrField fields "provider"
              repo := optStrField fields "repo"
              prNumber := optNumField fields "prNumber"
              mrIid := optNumField fields "mrIid"
              sha := optStrField fields "sha"
              title := optStrField fields "title"
              description := optStrField fields "description"
              mode := match getField fields "mode" with
                | some (.str "inline") => Mode.inline
                | _ => Mode.summary
              rulesMd := optStrField fields "rulesMd" }
    | _ => .error .missingDiff
  | .arr _ => .error .missingDiff
  | _ => .error .bodyNotObject

/-- Source `buildUserPrompt` (identical in all variants): the truthy
optional parts in fixed order, the mode, the truncation notice, and the
fenced diff, joined by blank lines. -/
def buildUserPrompt (req : ReviewRequest) (truncated : Bool) : String :=
  String.intercalate "\n\n"
    ((if optStrTruthy req.title then ["PR Title: " ++ req.title.getD ""] else [])
     ++ (if optStrTruthy req.description then
          ["PR Description: " ++ req.description.getD ""] else [])
     ++ (if optStrTruthy req.rulesMd then
          ["Additional Review Rules:\n" ++ req.rulesMd.getD ""] else [])
     ++ ["Review Mode: " ++ modeString req.mode]
     ++ (if truncated then ["Note: The diff was truncated due to length limits."] else [])
     ++ ["\nDiff to review:\n```diff\n" ++ String.mk req.diff ++ "\n```"])

/-- The strict-JSON instruction the README `handleReview` appends to the
user prompt before the first inference call. -/
def strictSuffix : String :=
  "\n\nIMPORTANT: Return ONLY a single valid JSON object (double quotes for keys/strings). No markdown, no code fences, no commentary."

/-- The invalid-JSON instruction appended for the retry call. -/
def retrySuffix : String :=
  "\n\nYour previous response was not valid JSON. Try again and output ONLY valid JSON."

/-- The README-variant `formatFindingBullet`: title, optional parenthesised
location (the `:line` lands after the closing backtick, as in the source),
rationale, optional suggestion. -/
def formatFindingBullet (f : Finding) : String :=
  let bullet := "- **" ++ f.title ++ "**"
  let bullet :=
    if optStrTruthy f.file then
      bullet ++ " (`" ++ f.file.getD "" ++ "`"
        ++ (if optIntTruthy f.line then ":" ++ toString (f.line.getD 0) else "") ++ ")"
    else bullet
  let bullet := bullet ++ " — " ++ f.rationale
  if optStrTruthy f.suggestion then bullet ++ " *Suggestion:* " ++ f.suggestion.getD ""
  else bullet

/-- The closing recommendation text of the README renderer. -/
def recText : Recommendation → String
  | .approve => "**Approve** — No blocking issues found."
  | .approve_with_changes =>
      "**Approve with changes** — Address the recommended items before or shortly after merge."
  | .request_changes =>
      "**Request changes** — Blocking issues must be resolved before merge."

/-- The `lines` array of the README-variant `renderReviewMarkdown` (fixed
heading, quoted summary, the three buckets when non-empty, testing notes,
closing recommendation, commit line with `sha.slice(0, 7)` or N/A). -/
def renderLines (summary : String) (findings : List Finding) (testingNotes : List String)
    (rec' : Recommendation) (sha : Option String) : List String :=
  ["<!-- diff-sheriff -->", "## ✅ Diff-Sheriff Review", "", "### 🔎 Summary",
   "> " ++ summary, ""]
  ++ (if 0 < (findings.filter (fun f => f.severity == Severity.high)).length then
        "### 🚨 Must Fix (Blocking)" ::
          ((findings.filter (fun f => f.severity == Severity.high)).map formatFindingBullet
            ++ [""])
      else [])
  ++ (if 0 < (findings.filter (fun f => f.severity == Severity.medium)).length then
        "### ⚠️ Should Fix (Recommended)" ::
          ((findings.filter (fun f => f.severity == Severity.medium)).map formatFindingBullet
            ++ [""])
      else [])
  ++ (if 0 < (findings.filter (fun f => f.severity == Severity.low || f.severity == Severity.nit)).length then
        "### 💡 Nice to Have (Optional)" ::
          ((findings.filter (fun f => f.severity == Severity.low || f.severity == Severity.nit)).map formatFindingBullet
            ++ [""])
      else [])
  ++ (if 0 < testingNotes.length then
        "### 🧪 Testing Notes" :: (testingNotes.map (fun n => "- " ++ n) ++ [""])
      else [])
  ++ ["### 🧭 Overall Recommendation", "- " ++ recText rec', "",
      "<sub>Reviewed by Diff-Sheriff • AI-assisted, human-aligned • Commit: "
        ++ (if optStrTruthy sha then "`" ++ String.mk ((sha.getD "").data.take 7) ++ "`"
            else "N/A") ++ "</sub>"]

/-- The README-variant `renderReviewMarkdown`: the joined lines. -/
def renderReviewMarkdown (summary : String) (findings : List Finding)
    (testingNotes : List String) (rec' : Recommendation) (sha : Option String) : String :=
  String.intercalate "\n" (renderLines summary findings testingNotes rec' sha)

/-- Response metadata: request echo plus the truncation flag. -/
structure ResponseMeta where
  provider : Option String
  repo : Option String
  sha : Option String
  mode : Mode
  truncatedDiff : Bool
  deriving DecidableEq, Repr

/-- The README-variant `ReviewResponse` (no inline comments in this
variant); `ok: true` is implied by the `Except.ok` constructor. -/
structure ReviewResponseModel where
  reviewId : String
  summary : String
  findings : List Finding
  commentMd : String
  recommendation : Recommendation
  meta : ResponseMeta
  deriving DecidableEq, Repr

/-- One attempt of the `extractJson` + `validateAiResponse` pair, as in both
try blocks of the README `handleReview`. -/
def attemptParse (parse : String → Option JsonValue) (text : String) :
    Except AttemptError AiValidated :=
  match extractJson parse text with
  | .error e => .error (.extract e)
  | .ok v =>
    match validateAiResponse v with
    | .error e => .error (.validate e)
    | .ok r => .ok r

/-- The canned summary of the trivial-diff short cut. -/
def trivialSummary : String :=
  "Trivial change (comments, whitespace, or non-functional). No issues found."

/-- The canned approve response returned without inference when the diff is
trivial. -/
def trivialResponse (req : ReviewRequest) (truncated : Bool) (reviewId : String) :
    ReviewResponseModel :=
  { reviewId := reviewId
    summary := trivialSummary
    findings := []
    commentMd := renderReviewMarkdown trivialSummary [] [] .approve req.sha
    recommendation := .approve
    meta := { provider := req.provider, repo := req.repo, sha := req.sha,
              mode := req.mode, truncatedDiff := truncated } }

/-- The response assembly after a successful parse: noise-filter the
findings, derive the recommendation from the filtered set, render, and echo
the metadata.  The metadata-noise predicate (a fixed regex table in the
source) is the parameter `noise`. -/
def assembleResponse (noise : Finding → Bool) (req : ReviewRequest) (truncated : Bool)
    (reviewId : String) (v : AiValidated) : ReviewResponseModel :=
  let filtered := v.findings.filter (fun f => !(noise f))
  let rec' := deriveRecommendation filtered
  { reviewId := reviewId
    summary := v.summary
    findings := filtered
    commentMd := renderReviewMarkdown v.summary filtered v.testingNotes rec' req.sha
    recommendation := rec'
    meta := { provider := req.provider, repo := req.repo, sha := req.sha,
              mode := req.mode, truncatedDiff := truncated } }

/-- The outcome of one request: the result and the user prompts issued to
the inference backend, in order. -/
structure CoreOutcome where
  result : Except ReviewError ReviewResponseModel
  prompts : List String
  deriving DecidableEq, Repr

/-- The truncation step applied to a built request. -/
def truncatedReq (req0 : ReviewRequest) : ReviewRequest × Bool :=
  ({ req0 with diff := (truncateDiff req0.diff).1 }, (truncateDiff req0.diff).2)

/-- The user prompt of the first inference call: `buildUserPrompt` plus the
strict-JSON instruction. -/
def strictPromptFor (req : ReviewRequest) (truncated : Bool) : String :=
  buildUserPrompt req truncated ++ strictSuffix

/-- Prompt of the first call for a built request, after truncation. -/
def postTruncationPrompt (req0 : ReviewRequest) : String :=
  strictPromptFor (truncatedReq req0).1 (truncatedReq req0).2

/-- The README `handleReview` pipeline after authentication and body
parsing (both transport concerns): body checks, truncation, the trivial-diff
short cut, the first inference call, and the retry controller.  `infer`
composes the inference collaborator with `getAiResponseText` (its system
prompt is a constant and is omitted); `parse` is `JSON.parse`; `reviewId`
is the fresh UUID; `noise` is `isMetadataNoiseFinding`. -/
def handleReviewCore (parse : String → Option JsonValue) (noise : Finding → Bool)
    (infer : String → Except String String) (reviewId : String) (body : JsonValue) :
    CoreOutcome :=
  match checkAndBuild body with
  | .error e => { result := .error e, prompts := [] }
  | .ok req0 =>
    let req := (truncatedReq req0).1
    let truncated := (truncatedReq req0).2
    if isTrivialDiff req.diff then
      { result := .ok (trivialResponse req truncated reviewId), prompts := [] }
    else
      let strictPrompt := strictPromptFor req truncated
      match infer strictPrompt with
      | .error m => { result := .error (.aiFailure m), prompts := [strictPrompt] }
      | .ok t1 =>
        match attemptParse parse t1 with
        | .ok v => { result := .ok (assembleResponse noise req truncated reviewId v),
                     prompts := [strictPrompt] }
        | .error _ =>
          match infer (strictPrompt ++ retrySuffix) with
          | .error m => { result := .error (.parseFailureInfer m),
                          prompts := [strictPrompt, strictPrompt ++ retrySuffix] }
          | .ok t2 =>
            match attemptParse parse t2 with
            | .ok v => { result := .ok (assembleResponse noise req truncated reviewId v),
                         prompts := [strictPrompt, strictPrompt ++ retrySuffix] }
            | .error e2 => { result := .error (.parseFailureAttempt e2),
                             prompts := [strictPrompt, strictPrompt ++ retrySuffix] }

/-- C10: a request whose diff field is a string of only whitespace
characters — non-empty text — is rejected with the missing-or-empty-diff
error, mapped to HTTP 400, before any inference call: the prompt list is
empty, so `infer` was never consulted. -/
theorem handleReview_whitespace_diff (parse : String → Option JsonValue)
    (noise : Finding → Bool) (infer : String → Except String String) (reviewId : String)
    (fields : List (String × JsonValue)) (s : String)
    (hdiff : getField fields "diff" = some (.str s))
    (hne : s.data ≠ [])
    (hws : s.data.all isJsWs = true) :
    handleReviewCore parse noise infer reviewId (.obj fields)
      = { result := .error ReviewError.missingDiff, prompts := [] }
    ∧ statusOf ReviewError.missingDiff = 400 := by
  have htrim : trimList s.data = [] := trimList_eq_nil_of_all_ws _ hws
  refine ⟨?_, rfl⟩
  have hcb : checkAndBuild (.obj fields) = .error .missingDiff := by
    simp only [checkAndBuild, hdiff]
    rw [if_pos htrim]
  unfold handleReviewCore
  rw [hcb]

/-- Witness for C10: a body whose diff is the non-empty whitespace string
consisting of a space, a tab and a space is rejected with the 400
missing-diff error and no prompt is issued. -/
theorem handleReview_whitespace_diff_witness :
    handleReviewCore (fun _ => none) (fun _ => false) (fun _ => .ok "") "id"
        (.obj [("diff", .str " \t ")])
      = { result := .error ReviewError.missingDiff, prompts := [] }
    ∧ statusOf ReviewError.missingDiff = 400 :=
  handleReview_whitespace_diff _ _ _ _ _ _ rfl (by decide) (by decide)

/-- C6: when the first inference reply fails extraction or validation,
exactly one additional inference call is issued — its prompt is the first
prompt with the invalid-JSON instruction appended, and no further prompt
follows — and extraction plus validation are repeated on its reply: a
failing second attempt (its inference call errors, or its reply again fails
extraction or validation) surfaces the terminal AI-response-parsing error,
while a second reply that parses yields the normal assembled response. -/
theorem handleReview_retry_spec (parse : String → Option JsonValue) (noise : Finding → Bool)
    (infer : String → Except String String) (reviewId : String) (body : JsonValue)
    (req0 : ReviewRequest) (t1 : String) (e1 : AttemptError)
    (hbuild : checkAndBuild body = .ok req0)
    (hnt : isTrivialDiff (truncatedReq req0).1.diff = false)
    (h1 : infer (postTruncationPrompt req0) = .ok t1)
    (hfail : attemptParse parse t1 = .error e1) :
    (handleReviewCore parse noise infer reviewId body).prompts
      = [postTruncationPrompt req0, postTruncationPrompt req0 ++ retrySuffix]
    ∧ (∀ m, infer (postTruncationPrompt req0 ++ retrySuffix) = .error m →
        (handleReviewCore parse noise infer reviewId body).result
          = .error (ReviewError.parseFailureInfer m))
    ∧ (∀ t2 e2, infer (postTruncationPrompt req0 ++ retrySuffix) = .ok t2 →
        attemptParse parse t2 = .error e2 →
        (handleReviewCore parse noise infer reviewId body).result
          = .error (ReviewError.parseFailureAttempt e2))
    ∧ (∀ t2 v, infer (postTruncationPrompt req0 ++ retrySuffix) = .ok t2 →
        attemptParse parse t2 = .ok v →
        (handleReviewCore parse noise infer reviewId body).result
          = .ok (assembleResponse noise (truncatedReq req0).1 (truncatedReq req0).2
              reviewId v)) := by
  have hcore : handleReviewCore parse noise infer reviewId body =
      (match infer (postTruncationPrompt req0 ++ retrySuffix) with
       | .error m =>
         { result := .error (.parseFailureInfer m),
           prompts := [postTruncationPrompt req0, postTruncationPrompt req0 ++ retrySuffix] }
       | .ok t2 =>
         match attemptParse parse t2 with
         | .ok v =>
           { result := .ok (assembleResponse noise (truncatedReq req0).1
               (truncatedReq req0).2 reviewId v),
             prompts := [postTruncationPrompt req0, postTruncationPrompt req0 ++ retrySuffix] }
         | .error e2 =>
           { result := .error (.parseFailureAttempt e2),
             prompts := [postTruncationPrompt req0,
               postTruncationPrompt req0 ++ retrySuffix] }) := by
    unfold postTruncationPrompt at h1
    unfold handleReviewCore
    rw [hbuild]
    dsimp only
    rw [hnt]
    rw [if_neg (by simp)]
    rw [h1]
    dsimp only
    rw [hfail]
    rfl
  refine ⟨?_, ?_, ?_, ?_⟩
  · rw [hcore]
    cases hr : infer (postTruncationPrompt req0 ++ retrySuffix) with
    | error m => rfl
    | ok t2 =>
      dsimp only
      cases ha : attemptParse parse t2 with
      | error e2 => rfl
      | ok v => rfl
  · intro m hm
    rw [hcore, hm]
  · intro t2 e2 hm ha
    rw [hcore, hm]
    dsimp only
    rw [ha]
  · intro t2 v hm ha
    rw [hcore, hm]
    dsimp only
    rw [ha]

/-- A `JSON.parse` stand-in for the retry witness: everything parses to an
object carrying the summary "ok". -/
def sampleParse : String → Option JsonValue :=
  fun _ => some (.obj [("summary", .str "ok")])

/-- A noise predicate keeping every finding, for the retry witness. -/
def sampleNoise : Finding → Bool := fun _ => false

/-- A request body with a one-line substantive diff, for the retry
witness. -/
def sampleBody : JsonValue := .obj [("diff", .str "+ x = 1")]

/-- The request `checkAndBuild` builds from `sampleBody`. -/
def sampleReq : ReviewRequest := { diff := "+ x = 1".data }

/-- An inference collaborator that answers the retry prompt with a JSON
object and everything else with brace-free text. -/
def sampleInfer : String → Except String String := fun p =>
  if p = postTruncationPrompt sampleReq ++ retrySuffix then .ok "\x7bok\x7d"
  else .ok "no json"

/-- Witness for C6: with a first reply that has no braces and a retry reply
that parses, the pipeline issues exactly the two prompts and returns the
assembled response of the retry reply. -/
theorem handleReview_retry_spec_witness :
    (handleReviewCore sampleParse sampleNoise sampleInfer "id" sampleBody).prompts
      = [postTruncationPrompt sampleReq, postTruncationPrompt sampleReq ++ retrySuffix]
    ∧ (handleReviewCore sampleParse sampleNoise sampleInfer "id" sampleBody).result
      = .ok (assembleResponse sampleNoise (truncatedReq sampleReq).1
          (truncatedReq sampleReq).2 "id"
          { summary := "ok", findings := [], testingNotes := [] }) := by
  have hbuild : checkAndBuild sampleBody = .ok sampleReq := by decide
  have hnt : isTrivialDiff (truncatedReq sampleReq).1.diff = false := by decide
  have h1 : sampleInfer (postTruncationPrompt sampleReq) = .ok "no json" := by decide
  have hfail : attemptParse sampleParse "no json"
      = .error (.extract ExtractError.noJsonFound) := by decide
  obtain ⟨hp, _, _, hok⟩ := handleReview_retry_spec sampleParse sampleNoise sampleInfer "id"
    sampleBody sampleReq "no json" (.extract ExtractError.noJsonFound) hbuild hnt h1 hfail
  exact ⟨hp, hok "\x7bok\x7d" { summary := "ok", findings := [], testingNotes := [] }
    (by decide) (by decide)⟩

end Full

end DiffSheriff
